import Mathlib

/-!
Verification development for the Balatro AI assistant core
(poker_ai/game_state.py and poker_ai/optimizer.py).

Shallow embedding conventions:
* Python ints are `Int` (counts that are provably nonnegative are `Nat`);
  Python floats are `ℚ` (every float literal in the source - 0.3, 0.8,
  0.95, 0.1, 0.05, 0.01, 1.5 - denotes a decimal rational and every
  operation performed on them here stays far from binary-rounding
  boundaries, so exact rational arithmetic is faithful for the
  properties considered).
* `int(x)` on a float is truncation toward zero, modelled by `truncQ`.
* Python dicts built by insertion are modelled as association lists in
  insertion order (`countsList`), since the source iterates `dict.items()`
  whose order is insertion order.
* `list.sort(key=k, reverse=True)` is a stable descending sort, modelled
  by the stable insertion sort `stableSortDescBy`; ascending sorts by
  `stableSortAscBy`.
* Fallible Python code (raising AttributeError / ValueError / IndexError)
  is modelled with `Except String`.
* Strings are kept as `String` where the source compares them
  (joker condition names); card tokens are modelled as `List Char`.
* Presentation-only fields (`reasoning`, `confidence`, `notes`,
  `potential_hands` attached to an `Action`, `cards_played_this_round`
  bookkeeping) are omitted from the records: no claim inspects them and
  no control flow of the translated functions depends on them.  The
  unused `scoring_cards` parameters of `_apply_joker`/`_check_condition`
  are likewise dropped.
* Library rational arithmetic is irreducible to the kernel, so the
  translation computes through the reducible `qmul`/`qsub`/`qneg`/
  `qinv`/`Rat.divInt` equivalents; the `qmul_eq` family of lemmas
  identifies them with the library operations for the statements.
-/

namespace Balatro

/-- Suits of cards (`Suit`): the enum value is the letter H/D/C/S. -/
inductive Suit where
  | HEARTS
  | DIAMONDS
  | CLUBS
  | SPADES
deriving DecidableEq

/-- Card enhancements (`Enhancement`). -/
inductive Enhancement where
  | NONE
  | BONUS
  | MULT
  | WILD
  | GLASS
  | STEEL
  | STONE
  | GOLD
  | LUCKY
deriving DecidableEq

/-- Card/joker editions (`Edition`). -/
inductive Edition where
  | NONE
  | FOIL
  | HOLOGRAPHIC
  | POLYCHROME
  | NEGATIVE
deriving DecidableEq

/-- Card seals (`Seal`). -/
inductive Seal where
  | NONE
  | GOLD
  | RED
  | BLUE
  | PURPLE
deriving DecidableEq

/-- Poker hand types (`HandType`), in declaration order. -/
inductive HandType where
  | HIGH_CARD
  | PAIR
  | TWO_PAIR
  | THREE_OF_A_KIND
  | STRAIGHT
  | FLUSH
  | FULL_HOUSE
  | FOUR_OF_A_KIND
  | STRAIGHT_FLUSH
  | ROYAL_FLUSH
  | FIVE_OF_A_KIND
  | FLUSH_HOUSE
  | FLUSH_FIVE
deriving DecidableEq

/-- `HandType.base_chips` from the enum table. -/
def HandType.baseChips : HandType → Int
  | .HIGH_CARD => 5
  | .PAIR => 10
  | .TWO_PAIR => 20
  | .THREE_OF_A_KIND => 30
  | .STRAIGHT => 30
  | .FLUSH => 35
  | .FULL_HOUSE => 40
  | .FOUR_OF_A_KIND => 60
  | .STRAIGHT_FLUSH => 100
  | .ROYAL_FLUSH => 100
  | .FIVE_OF_A_KIND => 120
  | .FLUSH_HOUSE => 140
  | .FLUSH_FIVE => 160

/-- `HandType.base_mult` from the enum table. -/
def HandType.baseMult : HandType → Int
  | .HIGH_CARD => 1
  | .PAIR => 2
  | .TWO_PAIR => 2
  | .THREE_OF_A_KIND => 3
  | .STRAIGHT => 4
  | .FLUSH => 4
  | .FULL_HOUSE => 4
  | .FOUR_OF_A_KIND => 7
  | .STRAIGHT_FLUSH => 8
  | .ROYAL_FLUSH => 8
  | .FIVE_OF_A_KIND => 12
  | .FLUSH_HOUSE => 14
  | .FLUSH_FIVE => 16

/-- `Card`: rank 2-14 (J=11, Q=12, K=13, A=14) plus modifiers. -/
structure Card where
  rank : Int
  suit : Suit
  enhancement : Enhancement := .NONE
  edition : Edition := .NONE
  seal' : Seal := .NONE
deriving DecidableEq

/-- `Card.chip_value`: Stone is a fixed 50; otherwise the rank base
(2-10 face value, 10 for J/Q/K, 11 otherwise i.e. Ace), +30 for Bonus,
+50 for Foil. -/
def chipValue (c : Card) : Int :=
  if c.enhancement = Enhancement.STONE then 50
  else
    let base : Int :=
      if 2 ≤ c.rank ∧ c.rank ≤ 10 then c.rank
      else if c.rank = 11 ∨ c.rank = 12 ∨ c.rank = 13 then 10
      else 11
    let base := if c.enhancement = Enhancement.BONUS then base + 30 else base
    let base := if c.edition = Edition.FOIL then base + 50 else base
    base

/-- `Card.__eq__`: two cards are equal iff rank, suit and enhancement
match (edition and seal are ignored). -/
def cardEqb (a b : Card) : Bool :=
  decide (a.rank = b.rank) && decide (a.suit = b.suit) &&
    decide (a.enhancement = b.enhancement)

/-- The tuple `Card.__hash__` feeds to `hash`: rank, suit, enhancement,
edition AND seal. (Python hashes this 5-tuple; two cards whose tuples
differ are hashed as distinct keys.) -/
def cardHashKey (c : Card) : Int × Suit × Enhancement × Edition × Seal :=
  (c.rank, c.suit, c.enhancement, c.edition, c.seal')

/-- Effect of a joker (`JokerEffect`). -/
structure JokerEffect where
  flatChips : Int := 0
  flatMult : Int := 0
  xMult : ℚ := 1
  chipMult : ℚ := 1
  conditional : Option String := none
  trigger : Option String := none
deriving DecidableEq

/-- A joker (`Joker`). Its fields are exactly name, rarity, edition and
effect - in particular there is no `trigger_type` field. -/
structure Joker where
  name : String
  rarity : String
  edition : Edition := .NONE
  effect : JokerEffect := {}
deriving DecidableEq

/-- `BlindInfo`. -/
structure BlindInfo where
  name : String
  targetScore : Int
  reward : Int := 0
  isBoss : Bool := false
  specialEffect : Option String := none
deriving DecidableEq

/-- `GameState`. `hand_levels` is a total Python default-dict
(every hand type mapped to 1 unless set), modelled as a function;
`hand_levels.get(ht, 1)` is plain application. -/
structure GameState where
  hand : List Card := []
  deck : List Card := []
  jokers : List Joker := []
  handLevels : HandType → Int := fun _ => 1
  handsRemaining : Int := 4
  discardsRemaining : Int := 3
  money : Int := 0
  blind : BlindInfo := { name := "Small Blind", targetScore := 300 }
  currentScore : Int := 0
  ante : Int := 1
  roundInAnte : Int := 1

/-- Per-level chip bonus of `HandLevel.chips` (the `level_bonus` table;
the table is total so its `.get(ht, 10)` default is never used). -/
def levelBonusChips : HandType → Int
  | .HIGH_CARD => 10
  | .PAIR => 15
  | .TWO_PAIR => 20
  | .THREE_OF_A_KIND => 20
  | .STRAIGHT => 30
  | .FLUSH => 15
  | .FULL_HOUSE => 25
  | .FOUR_OF_A_KIND => 30
  | .STRAIGHT_FLUSH => 40
  | .ROYAL_FLUSH => 40
  | .FIVE_OF_A_KIND => 35
  | .FLUSH_HOUSE => 40
  | .FLUSH_FIVE => 50

/-- `HandLevel.chips`: base chips plus `(level-1)` times the per-type bonus. -/
def levelChips (ht : HandType) (level : Int) : Int :=
  ht.baseChips + (level - 1) * levelBonusChips ht

/-- `HandLevel.mult`: base mult plus `(level-1)`. -/
def levelMult (ht : HandType) (level : Int) : Int :=
  ht.baseMult + (level - 1)

/-- Kernel-reducible rational multiplication (the library operation is
marked irreducible; `qmul_eq` below identifies the two). -/
def qmul (a b : ℚ) : ℚ := Rat.divInt (a.num * b.num) ((a.den : Int) * b.den)

/-- Kernel-reducible rational subtraction. -/
def qsub (a b : ℚ) : ℚ := Rat.divInt (a.num * b.den - b.num * a.den) ((a.den : Int) * b.den)

/-- Kernel-reducible rational negation. -/
def qneg (a : ℚ) : ℚ := Rat.divInt (-a.num) (a.den : Int)

/-- Kernel-reducible rational inverse (0 maps to 0, as in the library). -/
def qinv (a : ℚ) : ℚ := Rat.divInt (a.den : Int) a.num

/-- Kernel-reducible power with natural exponent. -/
def qpowNat (q : ℚ) : Nat → ℚ
  | 0 => 1
  | n + 1 => qmul (qpowNat q n) q

/-- Python `q ** i` for an int exponent: the reciprocal power when the
exponent is negative. -/
def qpowInt (q : ℚ) (i : Int) : ℚ :=
  if 0 ≤ i then qpowNat q i.toNat else qinv (qpowNat q (-i).toNat)

/-- Python `max(a, b)` on floats: `a` when `a ≥ b`, else `b`. -/
def pymax (a b : ℚ) : ℚ := if b ≤ a then a else b

/-- Python `min(a, b)` on floats: `a` when `a ≤ b`, else `b`. -/
def pymin (a b : ℚ) : ℚ := if a ≤ b then a else b

/-- Python `int(x)` on a float: truncation toward zero. -/
def truncQ (q : ℚ) : Int :=
  if q < 0 then -⌊qneg q⌋ else ⌊q⌋

/-- Add one occurrence of `k` to an insertion-ordered count list
(one step of `d[k] = d.get(k, 0) + 1`). -/
def bumpCount {α : Type} [DecidableEq α] : List (α × Nat) → α → List (α × Nat)
  | [], k => [(k, 1)]
  | p :: t, k => if p.1 = k then (p.1, p.2 + 1) :: t else p :: bumpCount t k

/-- The insertion-ordered counter dict of a list
(`Counter(xs)` / a dict built with `d[k] = d.get(k, 0) + 1`):
keys appear in first-occurrence order, as `dict.items()` iterates them. -/
def countsList {α : Type} [DecidableEq α] (xs : List α) : List (α × Nat) :=
  xs.foldl bumpCount []

/-- Dictionary lookup `d[k]` in a count list (0 when absent; the source
only looks up keys that are present). -/
def countOf {α : Type} [DecidableEq α] (l : List (α × Nat)) (k : α) : Nat :=
  match l.find? (fun p => decide (p.1 = k)) with
  | some p => p.2
  | none => 0

/-- One insertion step of the stable descending insertion sort: the
earlier element `a` moves past `b` only when `b` has a strictly larger
key, so equal keys keep their original order. -/
def insertDescBy {α β : Type} [LinearOrder β] (key : α → β) (a : α) :
    List α → List α
  | [] => [a]
  | b :: bs => if key a < key b then b :: insertDescBy key a bs else a :: b :: bs

/-- Stable descending sort by key: the specification of Python
`list.sort(key=key, reverse=True)` (Timsort is stable and `reverse=True`
preserves the original order of equal keys). -/
def stableSortDescBy {α β : Type} [LinearOrder β] (key : α → β) :
    List α → List α
  | [] => []
  | a :: as => insertDescBy key a (stableSortDescBy key as)

/-- One insertion step of the stable ascending insertion sort. -/
def insertAscBy {α β : Type} [LinearOrder β] (key : α → β) (a : α) :
    List α → List α
  | [] => [a]
  | b :: bs => if key b < key a then b :: insertAscBy key a bs else a :: b :: bs

/-- Stable ascending sort by key: Python `list.sort(key=key)`. -/
def stableSortAscBy {α β : Type} [LinearOrder β] (key : α → β) :
    List α → List α
  | [] => []
  | a :: as => insertAscBy key a (stableSortAscBy key as)

/-- `max(l, key=key)` starting from `m`: Python `max` keeps the first
element among equals (a later element replaces only when strictly
larger). -/
def firstMaxFrom {α β : Type} [LinearOrder β] (key : α → β) (m : α) :
    List α → α
  | [] => m
  | b :: bs => if key m < key b then firstMaxFrom key b bs else firstMaxFrom key m bs

/-- `min(l, key=key)` starting from `m`: keeps the first element among
equals. -/
def firstMinFrom {α β : Type} [LinearOrder β] (key : α → β) (m : α) :
    List α → α
  | [] => m
  | b :: bs => if key b < key m then firstMinFrom key b bs else firstMinFrom key m bs

/-- The window scan of `HandEvaluator._is_straight`: some window of five
consecutive positions in the sorted distinct-rank list spans exactly 4
(`unique[i+4] - unique[i] == 4` for some `i`). -/
def hasRun5 : List Int → Bool
  | [] => false
  | a :: rest =>
    (match rest.drop 3 with
     | b :: _ => decide (b - a = 4)
     | [] => false) || hasRun5 rest

/-- `HandEvaluator._is_straight(ranks)`: fewer than five distinct ranks
is never a straight; otherwise scan windows of the ascending distinct
ranks, and finally accept the wheel when {2,3,4,5,14} is a subset. -/
def isStraightRanks (ranks : List Int) : Bool :=
  let unique := stableSortAscBy (fun r => r) ((countsList ranks).map (fun p => p.1))
  if unique.length < 5 then false
  else
    hasRun5 unique ||
      ([2, 3, 4, 5, 14] : List Int).all (fun r => unique.any (fun u => decide (u = r)))

/-- `HandEvaluator.get_hand_type`: classifies a card list and returns the
scoring cards.  NOTE (faithful to the source): `ranks` is built from ALL
cards - a Stone card contributes its `rank` field to `rank_counts` -
while the suit list excludes Stone cards and counts Wild cards toward
every suit. -/
def getHandType (cards : List Card) : HandType × List Card :=
  match cards with
  | [] => (HandType.HIGH_CARD, [])
  | c0 :: crest =>
    let ranks := cards.map (fun c => c.rank)
    let wildCount := (cards.filter (fun c => decide (c.enhancement = Enhancement.WILD))).length
    let suitsNonWild := cards.filterMap (fun c =>
      if c.enhancement = Enhancement.WILD then none
      else if c.enhancement = Enhancement.STONE then none
      else some c.suit)
    let rankCounts := countsList ranks
    let suitCounts := countsList suitsNonWild
    let sortedCounts := stableSortDescBy (fun n => n) (rankCounts.map (fun p => p.2))
    let isFlush : Bool :=
      decide (5 ≤ cards.length) &&
        (suitCounts.any (fun p => decide (5 ≤ p.2 + wildCount)) || decide (5 ≤ wildCount))
    let isStraight := isStraightRanks ranks
    let sc0 := sortedCounts.headD 0
    if decide (5 ≤ cards.length) && isFlush && decide (5 ≤ sc0) then
      (HandType.FLUSH_FIVE,
        (cards.filter (fun c => decide (5 ≤ countOf rankCounts c.rank))).take 5)
    else if decide (5 ≤ cards.length) && isFlush &&
        decide (sortedCounts.take 2 = [3, 2]) then
      (HandType.FLUSH_HOUSE, cards.take 5)
    else if decide (5 ≤ cards.length) && decide (5 ≤ sc0) then
      let targetRank :=
        match rankCounts.find? (fun p => decide (5 ≤ p.2)) with
        | some p => p.1
        | none => 0
      (HandType.FIVE_OF_A_KIND,
        (cards.filter (fun c => decide (c.rank = targetRank))).take 5)
    else if decide (5 ≤ cards.length) && isFlush && isStraight then
      let sortedRanks := stableSortAscBy (fun r => r) (rankCounts.map (fun p => p.1))
      if sortedRanks.drop (sortedRanks.length - 5) = [10, 11, 12, 13, 14] then
        (HandType.ROYAL_FLUSH, cards.take 5)
      else
        (HandType.STRAIGHT_FLUSH, cards.take 5)
    else if decide (4 ≤ sc0) then
      let targetRank :=
        match rankCounts.find? (fun p => decide (4 ≤ p.2)) with
        | some p => p.1
        | none => 0
      (HandType.FOUR_OF_A_KIND,
        (cards.filter (fun c => decide (c.rank = targetRank))).take 4)
    else if decide (2 ≤ sortedCounts.length) && decide (3 ≤ sc0) &&
        decide (2 ≤ sortedCounts.getD 1 0) then
      let threeRank :=
        match rankCounts.find? (fun p => decide (3 ≤ p.2)) with
        | some p => p.1
        | none => 0
      let pairRank :=
        match rankCounts.find? (fun p => decide (2 ≤ p.2) && decide (p.1 ≠ threeRank)) with
        | some p => p.1
        | none => 0
      (HandType.FULL_HOUSE,
        (cards.filter (fun c => decide (c.rank = threeRank))).take 3 ++
          (cards.filter (fun c => decide (c.rank = pairRank))).take 2)
    else if isFlush then
      (HandType.FLUSH, cards.take 5)
    else if isStraight then
      (HandType.STRAIGHT, cards.take 5)
    else if decide (3 ≤ sc0) then
      let targetRank :=
        match rankCounts.find? (fun p => decide (3 ≤ p.2)) with
        | some p => p.1
        | none => 0
      (HandType.THREE_OF_A_KIND,
        (cards.filter (fun c => decide (c.rank = targetRank))).take 3)
    else
      let pairs := (rankCounts.filter (fun p => decide (2 ≤ p.2))).map (fun p => p.1)
      if 2 ≤ pairs.length then
        let top2 := (stableSortDescBy (fun r => r) pairs).take 2
        (HandType.TWO_PAIR,
          top2.flatMap (fun r => (cards.filter (fun c => decide (c.rank = r))).take 2))
      else
        match pairs with
        | targetRank :: _ =>
          (HandType.PAIR,
            (cards.filter (fun c => decide (c.rank = targetRank))).take 2)
        | [] =>
          (HandType.HIGH_CARD, [firstMaxFrom (fun c => c.rank) c0 crest])

/-- `HandEvaluator._check_condition`: the string-keyed condition table;
unknown names default to False (`conditions.get(condition, False)`). -/
def checkCondition (cond : String) (cards : List Card) (ht : HandType)
    (state : GameState) : Bool :=
  if cond = "pair" then decide (ht = HandType.PAIR)
  else if cond = "two_pair" then decide (ht = HandType.TWO_PAIR)
  else if cond = "three_of_a_kind" then decide (ht = HandType.THREE_OF_A_KIND)
  else if cond = "straight" then
    decide (ht = HandType.STRAIGHT) || decide (ht = HandType.STRAIGHT_FLUSH)
  else if cond = "flush" then
    decide (ht = HandType.FLUSH) || decide (ht = HandType.STRAIGHT_FLUSH) ||
      decide (ht = HandType.FLUSH_HOUSE) || decide (ht = HandType.FLUSH_FIVE)
  else if cond = "full_house" then
    decide (ht = HandType.FULL_HOUSE) || decide (ht = HandType.FLUSH_HOUSE)
  else if cond = "four_of_a_kind" then decide (ht = HandType.FOUR_OF_A_KIND)
  else if cond = "hand_size_lte_3" then decide (cards.length ≤ 3)
  else if cond = "discards_0" then decide (state.discardsRemaining = 0)
  else if cond = "all_spades_clubs" then
    cards.all (fun c => decide (c.suit = Suit.SPADES) || decide (c.suit = Suit.CLUBS))
  else false

/-- `HandEvaluator._apply_joker`: returns (chips, mult, xMult).  Python
checks `if effect.conditional:` - the truthiness test is false for the
empty string as well as for None, so an empty condition name always
applies.  The x-multiplier is only multiplied in when `x_mult != 1.0`,
as in the source (the guard is observationally redundant). -/
def applyJoker (j : Joker) (cards : List Card) (ht : HandType)
    (state : GameState) : Int × Int × ℚ :=
  let conditionMet :=
    match j.effect.conditional with
    | none => true
    | some cond => if cond = "" then true else checkCondition cond cards ht state
  if conditionMet then
    (j.effect.flatChips, j.effect.flatMult,
      if j.effect.xMult ≠ 1 then j.effect.xMult else 1)
  else (0, 0, 1)

/-- The (handType, chips, mult, xMult) accumulators of
`HandEvaluator.calculate_score` just before the final-score lines:
hand-level base, then per-scoring-card chips/Mult/Holographic/Glass/
Polychrome, then each joker (effect plus the joker edition). -/
structure ScoreParts where
  handType : HandType
  chips : Int
  mult : Int
  xMult : ℚ
deriving DecidableEq

/-- Steps 1-4 of `HandEvaluator.calculate_score` (everything before
`final_mult = mult * x_mult`). -/
def scoreParts (cards : List Card) (state : GameState) : ScoreParts :=
  let (ht, scoringCards) := getHandType cards
  let level := state.handLevels ht
  let afterCards :=
    scoringCards.foldl
      (fun (acc : Int × Int × ℚ) card =>
        let chips := acc.1 + chipValue card
        let mult := acc.2.1 +
          (if card.enhancement = Enhancement.MULT then 4 else 0) +
          (if card.edition = Edition.HOLOGRAPHIC then 10 else 0)
        let xMult := qmul (qmul acc.2.2
          (if card.enhancement = Enhancement.GLASS then 2 else 1))
          (if card.edition = Edition.POLYCHROME then Rat.divInt 3 2 else 1)
        (chips, mult, xMult))
      (levelChips ht level, levelMult ht level, (1 : ℚ))
  let afterJokers :=
    state.jokers.foldl
      (fun (acc : Int × Int × ℚ) j =>
        let e := applyJoker j cards ht state
        let chips := acc.1 + e.1
        let mult := acc.2.1 + e.2.1
        let xMult := qmul acc.2.2 e.2.2
        let chips := if j.edition = Edition.FOIL then chips + 50 else chips
        let mult := if j.edition = Edition.HOLOGRAPHIC then mult + 10 else mult
        let xMult := if j.edition = Edition.POLYCHROME then qmul xMult (Rat.divInt 3 2) else xMult
        (chips, mult, xMult))
      afterCards
  { handType := ht, chips := afterJokers.1, mult := afterJokers.2.1,
    xMult := afterJokers.2.2 }

/-- The 4-tuple `HandEvaluator.calculate_score` returns:
(final score, hand type, total chips, reported total mult). -/
structure ScoreResult where
  score : Int
  handType : HandType
  chips : Int
  mult : Int
deriving DecidableEq

/-- `HandEvaluator.calculate_score`: `final_mult = mult * x_mult`,
`score = int(chips * final_mult)`, reported mult `int(final_mult)`. -/
def calculateScore (cards : List Card) (state : GameState) : ScoreResult :=
  let p := scoreParts cards state
  let finalMult : ℚ := qmul (p.mult : ℚ) p.xMult
  { score := truncQ (qmul (p.chips : ℚ) finalMult),
    handType := p.handType,
    chips := p.chips,
    mult := truncQ finalMult }

/-- Python slice `l[:k]` where `k` may be negative
(`l[:-n]` drops the last `n` elements). -/
def pyTake {α : Type} (l : List α) (k : Int) : List α :=
  if 0 ≤ k then l.take k.toNat else l.dropLast.take ((l.length : Int) + k).toNat

/-- `itertools.combinations(l, k)`: all strictly-increasing index
selections of size `k`, in lexicographic order over positions. -/
def combinations {α : Type} : Nat → List α → List (List α)
  | 0, _ => [[]]
  | _ + 1, [] => []
  | k + 1, a :: as =>
    ((combinations k as).map (fun c => a :: c)) ++ combinations (k + 1) as

/-- `ActionType`. -/
inductive ActionType where
  | PLAY
  | DISCARD
deriving DecidableEq

/-- `Action` (the fields the logic reads; presentation-only
`reasoning`, `confidence` and the attached `potential_hands` are
omitted, see the header). -/
structure Action where
  actionType : ActionType
  cards : List Card
  expectedScore : Int := 0
  handType : Option HandType := none
deriving DecidableEq

/-- `PotentialHand` (minus the presentation-only `reasoning`).
`cardsNeeded` is an `Int` because the flush branch computes
`5 - count`, which can be negative. -/
structure PotentialHand where
  handType : HandType
  cardsNeeded : Int
  cardsToDiscard : List Card
  cardsToKeep : List Card
  probability : ℚ
  expectedScore : Int
deriving DecidableEq

/-- `Strategy` (minus the presentation-only `notes`). -/
structure Strategy where
  actions : List Action := []
  totalExpectedScore : Int := 0
  handsNeeded : Int := 0
  discardsUsed : Int := 0
  successProbability : ℚ := 0
deriving DecidableEq

/-- The candidate subsets both `find_best_play` and `find_all_plays`
enumerate: for each size 1..min(5, hand size) in ascending order, the
index combinations of the hand in `itertools.combinations` order.  Each
element is kept with its hand position so that the identity-based
bookkeeping of `find_best_discard` (`id(c)`) can be expressed. -/
def allPlayCombos (state : GameState) : List (List (Nat × Card)) :=
  (List.range' 1 (min 5 state.hand.length)).flatMap
    (fun k => combinations k state.hand.enum)

/-- The `Action` both play-enumeration methods build for a candidate
subset, via `calculate_score`. -/
def mkPlayAction (state : GameState) (cards : List Card) : Action :=
  let r := calculateScore cards state
  { actionType := ActionType.PLAY, cards := cards,
    expectedScore := r.score, handType := some r.handType }

/-- One step of the running-best fold of `find_best_play`: an action
replaces the best only when strictly better, so the first subset
encountered wins ties. -/
def bestPlayStep (state : GameState)
    (acc : Option (List (Nat × Card) × Action) × Int)
    (ec : List (Nat × Card)) : Option (List (Nat × Card) × Action) × Int :=
  let a := mkPlayAction state (ec.map (fun p => p.2))
  if acc.2 < a.expectedScore then (some (ec, a), a.expectedScore) else acc

/-- The running-best fold of `find_best_play`: `best_score` starts at
-1. -/
def bestPlayFold (state : GameState) :
    Option (List (Nat × Card) × Action) × Int :=
  (allPlayCombos state).foldl (bestPlayStep state) (none, -1)

/-- `StrategyOptimizer.find_best_play`: the placeholder action on an
empty hand, otherwise the running best.  The Python function returns
`best_action`, which is `None` when no combination scored above the
initial -1 - hence the `Option`. -/
def findBestPlay (state : GameState) : Option Action :=
  if state.hand.isEmpty then
    some { actionType := ActionType.PLAY, cards := [], expectedScore := 0 }
  else
    (bestPlayFold state).1.map (fun p => p.2)

/-- The full candidate list `find_all_plays` builds (one action per
enumerated subset, in enumeration order). -/
def allPlayActions (state : GameState) : List Action :=
  (allPlayCombos state).map (fun ec => mkPlayAction state (ec.map (fun p => p.2)))

/-- `StrategyOptimizer.find_all_plays(top_n)`: stable-sort the candidate
actions descending by `expected_score` and take the first `top_n`. -/
def findAllPlays (state : GameState) (topN : Nat) : List Action :=
  (stableSortDescBy (fun a => a.expectedScore) (allPlayActions state)).take topN

/-- `StrategyOptimizer._calculate_draw_probability`.  `cards_needed` is
an `Int`: the flush analysis can pass a negative value, in which case
Python evaluates the fallback `(favorable/deck) ** needed * 10` with a
negative exponent, modelled by `zpow`. -/
def drawProbability (cardsNeeded favorableCards deckSize : Int) : ℚ :=
  if cardsNeeded = 0 then 1
  else if cardsNeeded = 1 then Rat.divInt favorableCards deckSize
  else if cardsNeeded = 2 then
    qsub 1 (qmul (Rat.divInt (deckSize - favorableCards) deckSize)
      (Rat.divInt (deckSize - favorableCards - 1) (deckSize - 1)))
  else
    pymax (Rat.divInt 1 100)
      (qmul (qpowInt (Rat.divInt favorableCards deckSize) cardsNeeded) 10)

/-- The partial base-chips table of `_estimate_hand_score`
(`base_chips.get(hand_type, 5)`: the three highest categories are absent
from the dict and fall back to 5). -/
def estBaseChips : HandType → Int
  | .HIGH_CARD => 5
  | .PAIR => 10
  | .TWO_PAIR => 20
  | .THREE_OF_A_KIND => 30
  | .STRAIGHT => 30
  | .FLUSH => 35
  | .FULL_HOUSE => 40
  | .FOUR_OF_A_KIND => 60
  | .STRAIGHT_FLUSH => 100
  | .ROYAL_FLUSH => 100
  | _ => 5

/-- The partial base-mult table of `_estimate_hand_score`
(`base_mult.get(hand_type, 1)`). -/
def estBaseMult : HandType → Int
  | .HIGH_CARD => 1
  | .PAIR => 2
  | .TWO_PAIR => 2
  | .THREE_OF_A_KIND => 3
  | .STRAIGHT => 4
  | .FLUSH => 4
  | .FULL_HOUSE => 4
  | .FOUR_OF_A_KIND => 7
  | .STRAIGHT_FLUSH => 8
  | .ROYAL_FLUSH => 8
  | _ => 1

/-- `StrategyOptimizer._estimate_hand_score(hand_type, scoring_cards)`.
Per-card chips use the plain rank (10 for faces, 11 for the Ace) - not
`chip_value`; the empty-or-None scoring list (`if scoring_cards:` is
falsy) takes the 7-chips-average branch.  The final joker loop reads
`joker.trigger_type`, an attribute the `Joker` class does not define, so
Python raises AttributeError as soon as at least one joker is held;
that failure is the `Except.error` branch. -/
def estimateHandScore (state : GameState) (handType : HandType)
    (scoringCards : Option (List Card)) : Except String Int :=
  let chips0 := estBaseChips handType
  let mult0 := estBaseMult handType
  let chips1 :=
    match scoringCards with
    | some (c :: cs) =>
      chips0 + ((c :: cs).map (fun card =>
        let cardChips := if card.rank ≤ 10 then card.rank else 10
        if card.rank = 14 then 11 else cardChips)).foldl (· + ·) 0
    | _ =>
      let numCards : Int :=
        if handType = HandType.STRAIGHT ∨ handType = HandType.FLUSH ∨
            handType = HandType.FULL_HOUSE ∨ handType = HandType.STRAIGHT_FLUSH ∨
            handType = HandType.ROYAL_FLUSH then 5 else 2
      chips0 + 7 * numCards
  let level := state.handLevels handType
  let chips2 := chips1 + (level - 1) * 10
  let mult1 := mult0 + (level - 1) * 1
  match state.jokers with
  | [] => Except.ok (chips2 * mult1)
  | _ => Except.error "AttributeError: Joker object has no attribute trigger_type"
/-- The 4-consecutive-run scan of `_find_straight_potential`: the first
window `sorted_ranks[i:i+4]` spanning exactly 3 yields a candidate
needing one rank.  `if needed_rank:` is Python truthiness, false for
None and for a needed rank of 0, in which case the scan continues.
The extra structural fuel (started at `sr.length`) dominates the number
of windows, so the fuel-exhausted branch coincides with the scan
running off the end. -/
def straightSearch4 (state : GameState) (hand : List Card) (sr : List Int) :
    Nat → Nat → Except String (Option PotentialHand)
  | 0, _ => pure none
  | fuel + 1, i =>
  if i + 4 ≤ sr.length then
    let w0 := sr.getD i 0
    let w3 := sr.getD (i + 3) 0
    if w3 - w0 = 3 then
      let neededRank : Option Int :=
        if 0 < i ∧ sr.getD (i - 1) 0 = w0 - 1 then some (w0 - 1)
        else if i + 4 < sr.length ∧ sr.getD (i + 4) 0 = w3 + 1 then some (w3 + 1)
        else if 2 < w0 then some (w0 - 1)
        else if w3 < 14 then some (w3 + 1)
        else none
      match neededRank with
      | some nr =>
        if nr ≠ 0 then do
          let window := (sr.drop i).take 4
          let keep := window.flatMap
            (fun r => (hand.filter (fun c => decide (c.rank = r))).take 1)
          let discard := (hand.filter (fun c => !(keep.any (fun k => cardEqb c k)))).take 4
          let prob := drawProbability 1 4 (52 - 8)
          let est ← estimateHandScore state HandType.STRAIGHT (some keep)
          pure (some { handType := HandType.STRAIGHT, cardsNeeded := 1,
                       cardsToDiscard := discard, cardsToKeep := keep,
                       probability := prob, expectedScore := est })
        else straightSearch4 state hand sr fuel (i + 1)
      | none => straightSearch4 state hand sr fuel (i + 1)
    else straightSearch4 state hand sr fuel (i + 1)
  else pure none

/-- The 3-consecutive-run scan of `_find_straight_potential` (only
proposed when the draw probability exceeds 0.05). -/
def straightSearch3 (state : GameState) (hand : List Card) (sr : List Int) :
    Nat → Nat → Except String (Option PotentialHand)
  | 0, _ => pure none
  | fuel + 1, i =>
  if i + 3 ≤ sr.length then
    let w0 := sr.getD i 0
    let w2 := sr.getD (i + 2) 0
    if w2 - w0 = 2 then
      let window := (sr.drop i).take 3
      let keep := window.flatMap
        (fun r => (hand.filter (fun c => decide (c.rank = r))).take 1)
      let discard := (hand.filter (fun c => !(keep.any (fun k => cardEqb c k)))).take 5
      let prob := drawProbability 2 8 (52 - 8)
      if Rat.divInt 1 20 < prob then do
        let est ← estimateHandScore state HandType.STRAIGHT (some keep)
        pure (some { handType := HandType.STRAIGHT, cardsNeeded := 2,
                     cardsToDiscard := discard, cardsToKeep := keep,
                     probability := prob, expectedScore := est })
      else straightSearch3 state hand sr fuel (i + 1)
    else straightSearch3 state hand sr fuel (i + 1)
  else pure none

/-- `StrategyOptimizer._find_straight_potential`: the 4-run scan first,
then the 3-run scan. -/
def findStraightPotential (state : GameState) (hand : List Card)
    (sr : List Int) : Except String (Option PotentialHand) := do
  let r4 ← straightSearch4 state hand sr sr.length 0
  match r4 with
  | some ph => pure (some ph)
  | none => straightSearch3 state hand sr sr.length 0

/-- `StrategyOptimizer.analyze_potential_hands`: flush, straight,
four-of-a-kind, full-house and three-of-a-kind candidates in source
order, sorted descending by `expected_score * probability`.  Every
candidate evaluates `_estimate_hand_score`, so with at least one joker
held the whole analysis raises (propagated as `Except.error`). -/
def analyzePotentialHands (state : GameState) :
    Except String (List PotentialHand) := do
  let hand := state.hand
  let rankCounts := countsList (hand.map (fun c => c.rank))
  let suitCounts := countsList (hand.map (fun c => c.suit))
  let flushPots ← suitCounts.foldlM
    (fun acc p =>
      if 4 ≤ p.2 then do
        let cardsNeeded : Int := 5 - (p.2 : Int)
        let keep := hand.filter (fun c => decide (c.suit = p.1))
        let discard := (hand.filter (fun c => decide (c.suit ≠ p.1))).take 5
        let remainingInSuit : Int := 13 - (p.2 : Int)
        let prob := drawProbability cardsNeeded remainingInSuit (52 - 8)
        if cardsNeeded ≤ 2 then do
          let est ← estimateHandScore state HandType.FLUSH (some keep)
          pure (acc ++ [{ handType := HandType.FLUSH, cardsNeeded := cardsNeeded,
                          cardsToDiscard := pyTake discard (cardsNeeded + 2),
                          cardsToKeep := keep, probability := prob,
                          expectedScore := est }])
        else pure acc
      else pure acc)
    ([] : List PotentialHand)
  let sortedRanks := stableSortAscBy (fun r => r) (rankCounts.map (fun p => p.1))
  let straightPot ← findStraightPotential state hand sortedRanks
  let pots1 := flushPots ++ straightPot.toList
  let pots2 ← rankCounts.foldlM
    (fun acc p =>
      if p.2 = 3 then do
        let keep := hand.filter (fun c => decide (c.rank = p.1))
        let discard := hand.filter (fun c => decide (c.rank ≠ p.1))
        let prob := drawProbability 1 1 (52 - 8)
        let est ← estimateHandScore state HandType.FOUR_OF_A_KIND (some keep)
        pure (acc ++ [{ handType := HandType.FOUR_OF_A_KIND, cardsNeeded := 1,
                        cardsToDiscard := discard.take 3, cardsToKeep := keep,
                        probability := prob, expectedScore := est }])
      else pure acc)
    pots1
  let pairs := rankCounts.filter (fun p => decide (2 ≤ p.2))
  let pots3 ←
    if 2 ≤ pairs.length then
      let trips := pairs.filter (fun p => decide (3 ≤ p.2))
      let twos := pairs.filter (fun p => decide (p.2 = 2))
      if trips ≠ [] ∧ twos ≠ [] then do
        let est ← estimateHandScore state HandType.FULL_HOUSE (some (hand.take 5))
        pure (pots2 ++ [{ handType := HandType.FULL_HOUSE, cardsNeeded := 0,
                          cardsToDiscard := [], cardsToKeep := hand,
                          probability := 1, expectedScore := est }])
      else if 2 ≤ twos.length then
        match twos with
        | t0 :: trest => do
          let bestPairRank := (firstMaxFrom (fun q => q.1) t0 trest).1
          let otherPairRank := (firstMinFrom (fun q => q.1) t0 trest).1
          let keep := hand.filter (fun c => decide (c.rank = bestPairRank)) ++
            hand.filter (fun c => decide (c.rank = otherPairRank))
          let discard := hand.filter (fun c => !(keep.any (fun k => cardEqb c k)))
          let prob := drawProbability 1 4 (52 - 8)
          let est ← estimateHandScore state HandType.FULL_HOUSE (some keep)
          pure (pots2 ++ [{ handType := HandType.FULL_HOUSE, cardsNeeded := 1,
                            cardsToDiscard := discard, cardsToKeep := keep,
                            probability := prob, expectedScore := est }])
        | [] => pure pots2
      else pure pots2
    else pure pots2
  let pots4 ← rankCounts.foldlM
    (fun acc p =>
      if p.2 = 2 then do
        let keep := hand.filter (fun c => decide (c.rank = p.1))
        let discard := hand.filter (fun c => decide (c.rank ≠ p.1))
        let prob := drawProbability 1 2 (52 - 8)
        let est ← estimateHandScore state HandType.THREE_OF_A_KIND (some keep)
        pure (acc ++ [{ handType := HandType.THREE_OF_A_KIND, cardsNeeded := 1,
                        cardsToDiscard := discard.take 3, cardsToKeep := keep,
                        probability := prob, expectedScore := est }])
      else pure acc)
    pots3
  pure (stableSortDescBy (fun ph => qmul (ph.expectedScore : ℚ) ph.probability) pots4)
/-- `StrategyOptimizer._analyze_discards(hand, candidates)`: follow the
top potential hand when it is likely enough (probability at least 0.1)
and still needs cards; otherwise fall back to discarding the candidates
of lowest badness value (stable ascending sort, first five). -/
def analyzeDiscards (state : GameState) (hand : List Card)
    (candidates : List Card) : Except String Action := do
  let potentialHands ← analyzePotentialHands state
  let fallback : Action :=
    let rankCounts := countsList (hand.map (fun c => c.rank))
    let suitCounts := countsList (hand.map (fun c => c.suit))
    let cardValues := candidates.map (fun card =>
      let value : Int := 0
      let value := value + (countOf rankCounts card.rank : Int) * 20
      let value := value + (countOf suitCounts card.suit : Int) * 5
      let value := value + (if 10 ≤ card.rank then 10 else 0)
      let value := value + (if card.rank = 14 then 15 else 0)
      let value := value + (if card.enhancement ≠ Enhancement.NONE then 30 else 0)
      let value := value + (if card.edition ≠ Edition.NONE then 40 else 0)
      (value, card))
    let sortedValues := stableSortAscBy (fun q => q.1) cardValues
    let toDiscard := (sortedValues.take (min 5 cardValues.length)).map (fun q => q.2)
    { actionType := ActionType.DISCARD, cards := toDiscard }
  match potentialHands with
  | best :: _ =>
    if Rat.divInt 1 10 ≤ best.probability ∧ 0 < best.cardsNeeded then
      pure { actionType := ActionType.DISCARD,
             cards := pyTake best.cardsToDiscard 5,
             expectedScore := truncQ (qmul (best.expectedScore : ℚ) best.probability),
             handType := some best.handType }
    else pure fallback
  | [] => pure fallback

/-- `StrategyOptimizer.find_best_discard`: no-op action when discarding
is impossible; otherwise the candidates are the hand positions not used
by the current best play (the source matches by `id(c)`, i.e. by
position).  When `find_best_play` returned None the attribute access
`current_best.cards` raises. -/
def findBestDiscard (state : GameState) : Except String Action :=
  if ¬(0 < state.discardsRemaining ∧ 0 < state.hand.length) then
    Except.ok { actionType := ActionType.DISCARD, cards := [] }
  else
    match (bestPlayFold state).1 with
    | none => Except.error "AttributeError: NoneType object has no attribute cards"
    | some (combo, _) =>
      let scoringIdx := combo.map (fun p => p.1)
      let discardCandidates :=
        (state.hand.enum.filter
          (fun p => !(scoringIdx.any (fun i => decide (i = p.1))))).map (fun p => p.2)
      if discardCandidates = [] then
        Except.ok { actionType := ActionType.DISCARD, cards := [] }
      else analyzeDiscards state state.hand discardCandidates

/-- The inner scan of `_count_consecutive`: walk the ascending distinct
ranks, tracking the current run and the maximum run. -/
def consecLoop (prev : Int) (maxc cur : Nat) : List Int → Nat
  | [] => maxc
  | x :: xs =>
    if x = prev + 1 then consecLoop x (max maxc (cur + 1)) (cur + 1) xs
    else consecLoop x maxc 1 xs

/-- `StrategyOptimizer._count_consecutive(sorted_ranks)`: length itself
below two elements; otherwise the longest consecutive run, adjusted for
the wheel (Ace counted together with however many of 2,3,4,5 appear). -/
def countConsecutive (sortedRanks : List Int) : Nat :=
  match sortedRanks with
  | [] => 0
  | [_] => 1
  | a :: rest =>
    let base := consecLoop a 1 1 rest
    if sortedRanks.any (fun r => decide (r = 14)) &&
        sortedRanks.any (fun r => decide (r = 2)) then
      let wheelCount := 1 + (([2, 3, 4, 5] : List Int).filter
        (fun w => sortedRanks.any (fun r => decide (r = w)))).length
      max base wheelCount
    else base

/-- `StrategyOptimizer._estimate_discard_value(state)`: the flat
closeness heuristic (+200/+50 for 4/3 of a suit, +150/+30 for 4/3
consecutive ranks, +100 for trips, +80 for two pairs). -/
def estimateDiscardValue (state : GameState) : Int :=
  let hand := state.hand
  let rankCounts := countsList (hand.map (fun c => c.rank))
  let suitCounts := countsList (hand.map (fun c => c.suit))
  let potentialValue : Int := 0
  let maxSuit := (suitCounts.map (fun p => p.2)).foldl max 0
  let potentialValue := potentialValue +
    (if maxSuit = 4 then 200 else if maxSuit = 3 then 50 else 0)
  let sortedRanks := stableSortAscBy (fun r => r) (rankCounts.map (fun p => p.1))
  let consecutive := countConsecutive sortedRanks
  let potentialValue := potentialValue +
    (if consecutive = 4 then 150 else if consecutive = 3 then 30 else 0)
  let maxRank := (rankCounts.map (fun p => p.2)).foldl max 0
  let pairsCount := ((rankCounts.map (fun p => p.2)).filter (fun c => decide (2 ≤ c))).length
  let potentialValue := potentialValue +
    (if maxRank = 3 then 100
     else if maxRank = 2 then (if 2 ≤ pairsCount then 80 else 0)
     else 0)
  potentialValue

/-- `list.remove(c)` guarded by `if c in hand`: drop the first
occurrence equal to `c` under `Card.__eq__`. -/
def removeFirstCard : List Card → Card → List Card
  | [], _ => []
  | x :: xs, c => if cardEqb c x then xs else x :: removeFirstCard xs c

/-- The removal loop of `calculate_strategy`
(`for card in cards: if card in hand: hand.remove(card)`). -/
def removeCards (hand : List Card) (cards : List Card) : List Card :=
  cards.foldl
    (fun h c => if h.any (fun x => cardEqb c x) then removeFirstCard h c else h)
    hand
/-- The simulation loop of `calculate_strategy`, with explicit fuel.
Each iteration either consumes a discard (when the discard branch is
taken and `find_best_discard` proposed a non-empty discard) or consumes
a hand, so `hands_remaining.toNat + discards_remaining.toNat` of the
entering state is always enough fuel: fuel can reach 0 only when
`hands_remaining` is 0, where the loop guard is false anyway.  The
float literal 0.3 is the rational 3/10.  `find_best_play` returning
None makes the next attribute access raise, modelled by the error
branch. -/
def simLoop (target : Int) : Nat → GameState → Int → Int → Int → List Action →
    Except String (Int × Int × Int × List Action)
  | 0, _, totalScore, handsNeeded, discardsUsed, actions =>
    Except.ok (totalScore, handsNeeded, discardsUsed, actions)
  | fuel + 1, sim, totalScore, handsNeeded, discardsUsed, actions =>
    if totalScore < target ∧ 0 < sim.handsRemaining then
      match findBestPlay sim with
      | none => Except.error "AttributeError: NoneType object has no attribute expected_score"
      | some bestPlay =>
        let shouldDiscard :=
          0 < sim.discardsRemaining ∧
            qmul (bestPlay.expectedScore : ℚ) (Rat.divInt 3 10) < (estimateDiscardValue sim : ℚ) ∧
            1 < sim.handsRemaining
        if shouldDiscard then
          match findBestDiscard sim with
          | Except.error e => Except.error e
          | Except.ok discardAction =>
            if discardAction.cards ≠ [] then
              simLoop target fuel
                { sim with discardsRemaining := sim.discardsRemaining - 1,
                           hand := removeCards sim.hand discardAction.cards }
                totalScore handsNeeded (discardsUsed + 1) (actions ++ [discardAction])
            else
              simLoop target fuel
                { sim with handsRemaining := sim.handsRemaining - 1,
                           hand := removeCards sim.hand bestPlay.cards }
                (totalScore + bestPlay.expectedScore) (handsNeeded + 1)
                discardsUsed (actions ++ [bestPlay])
        else
          simLoop target fuel
            { sim with handsRemaining := sim.handsRemaining - 1,
                       hand := removeCards sim.hand bestPlay.cards }
            (totalScore + bestPlay.expectedScore) (handsNeeded + 1)
            discardsUsed (actions ++ [bestPlay])
    else Except.ok (totalScore, handsNeeded, discardsUsed, actions)

/-- `StrategyOptimizer.calculate_strategy`: immediate success when the
target is already met; otherwise run the greedy simulation on a copy of
the state and derive the success probability from its outcome:
0.95 when the simulated total reaches the target (demoted to 0.0 when
the simulation used more hands than the caller state has), otherwise
`min(0.8, total/target)`.  0.95 and 0.8 are 19/20 and 4/5. -/
def calculateStrategy (state : GameState) : Except String Strategy :=
  let target := state.blind.targetScore
  let current := state.currentScore
  let needed := target - current
  if needed ≤ 0 then
    Except.ok { actions := [], totalExpectedScore := 0, handsNeeded := 0,
                discardsUsed := 0, successProbability := 1 }
  else
    match simLoop target (state.handsRemaining.toNat + state.discardsRemaining.toNat)
        state current 0 0 [] with
    | Except.error e => Except.error e
    | Except.ok (totalScore, handsNeeded, discardsUsed, actions) =>
      Except.ok
        { actions := actions,
          totalExpectedScore := totalScore,
          handsNeeded := handsNeeded,
          discardsUsed := discardsUsed,
          successProbability :=
            if target ≤ totalScore then
              (if handsNeeded ≤ state.handsRemaining then Rat.divInt 19 20 else 0)
            else pymin (Rat.divInt 4 5) (Rat.divInt totalScore target) }
/-- ASCII upper-casing of one character (`str.upper()` restricted to the
ASCII range, which covers every valid card token). -/
def asciiUpper (c : Char) : Char :=
  if decide ('a' ≤ c) && decide (c ≤ 'z') then Char.ofNat (c.toNat - 32) else c

/-- `token.upper()` over a character-list token. -/
def pyUpper (t : List Char) : List Char := t.map asciiUpper

/-- The whitespace set of `str.strip()`. -/
def isPySpace (c : Char) : Bool :=
  ([' ', '\t', '\n', '\r', '\x0b', '\x0c'] : List Char).any (fun w => decide (w = c))

/-- `token.strip()`: drop leading and trailing whitespace. -/
def pyStrip (t : List Char) : List Char :=
  ((t.dropWhile isPySpace).reverse.dropWhile isPySpace).reverse

/-- Structural worker for `natDigits` (the fuel dominates the digit
count, so it never runs out). -/
def natDigitsAux : Nat → Nat → List Char
  | 0, _ => []
  | fuel + 1, n =>
    if n < 10 then [Char.ofNat (48 + n)]
    else natDigitsAux fuel (n / 10) ++ [Char.ofNat (48 + n % 10)]

/-- Decimal digits of a natural number (`str` of a nonnegative int). -/
def natDigits (n : Nat) : List Char := natDigitsAux (n + 1) n

/-- `str(i)` for an int. -/
def intDecimalChars (i : Int) : List Char :=
  if i < 0 then '-' :: natDigits (-i).toNat else natDigits i.toNat

/-- `Card.rank_name`: J/Q/K/A for 11-14, otherwise the decimal rank. -/
def rankNameChars (r : Int) : List Char :=
  if r = 11 then ['J']
  else if r = 12 then ['Q']
  else if r = 13 then ['K']
  else if r = 14 then ['A']
  else intDecimalChars r

/-- The suit letter (`Suit.value`), used by the short-name rendering. -/
def suitLetter : Suit → Char
  | .HEARTS => 'H'
  | .DIAMONDS => 'D'
  | .CLUBS => 'C'
  | .SPADES => 'S'

/-- Re-rendering a card with the short-name mapping: `rank_name`
followed by the suit letter. -/
def renderCard (c : Card) : List Char :=
  rankNameChars c.rank ++ [suitLetter c.suit]

/-- The `suit_map` lookup of `parse_card`. -/
def suitOfChar (c : Char) : Option Suit :=
  if c = 'H' then some Suit.HEARTS
  else if c = 'D' then some Suit.DIAMONDS
  else if c = 'C' then some Suit.CLUBS
  else if c = 'S' then some Suit.SPADES
  else none

/-- `str.isdigit()` for ASCII: non-empty and all decimal digits. -/
def isDigits (t : List Char) : Bool :=
  !t.isEmpty && t.all (fun c => decide ('0' ≤ c) && decide (c ≤ '9'))

/-- `int(t)` of a digit string. -/
def digitsVal (t : List Char) : Nat :=
  t.foldl (fun acc c => acc * 10 + (c.toNat - 48)) 0

/-- The rank grammar of `parse_card`: the `rank_map`
(A/K/Q/J/T and "10"), or a bare digit string between 2 and 10. -/
def rankOfStr (t : List Char) : Option Int :=
  if t = ['A'] then some 14
  else if t = ['K'] then some 13
  else if t = ['Q'] then some 12
  else if t = ['J'] then some 11
  else if t = ['T'] then some 10
  else if t = ['1', '0'] then some 10
  else if isDigits t ∧ 2 ≤ digitsVal t ∧ digitsVal t ≤ 10 then
    some (digitsVal t : Int)
  else none

/-- The core of `parse_card` after `upper().strip()`: the suit is the
last character, the rank the remainder; failures (empty token, bad suit,
bad rank) raise, in source order. -/
def parseCore (t : List Char) : Except String Card :=
  match t.getLast? with
  | none => Except.error "IndexError: string index out of range"
  | some suitChar =>
    let rankStr := t.dropLast
    match suitOfChar suitChar with
    | none => Except.error "ValueError: invalid suit"
    | some suit =>
      match rankOfStr rankStr with
      | none => Except.error "ValueError: invalid rank"
      | some rank => Except.ok { rank := rank, suit := suit }

/-- `parse_card(card_str)`: upper-case, strip, then parse. -/
def parseCard (t : List Char) : Except String Card :=
  parseCore (pyStrip (pyUpper t))

/-- The valid rank spellings of the claim grammar, upper-case:
A, K, Q, J, T, "10", and the bare digits 2-9. -/
def rankTokens : List (List Char) :=
  [['A'], ['K'], ['Q'], ['J'], ['T'], ['1', '0'],
   ['2'], ['3'], ['4'], ['5'], ['6'], ['7'], ['8'], ['9']]

/-- All valid card tokens (upper-case): a rank spelling followed by a
suit letter. -/
def validTokens : List (List Char) :=
  rankTokens.flatMap (fun r => (['H', 'D', 'C', 'S'] : List Char).map (fun sc => r ++ [sc]))

/-- The valid tokens whose rank is not the single letter T. -/
def validTokensNoT : List (List Char) :=
  validTokens.filter (fun t => decide (t ≠ ['T', 'H']) && decide (t ≠ ['T', 'D']) &&
    decide (t ≠ ['T', 'C']) && decide (t ≠ ['T', 'S']))

/-- Decidable round-trip check for one (already uppercased, stripped)
token: it parses and re-renders to itself. -/
def tokenRoundTrips (t : List Char) : Bool :=
  match parseCore t with
  | Except.ok c => decide (renderCard c = t)
  | Except.error _ => false

/-- The spec wording of `chip_value`, for comparison with the source
translation `chipValue`.  Modelled from the spec: Stone is 50;
otherwise the base is the rank for 2-10, 10 for J/Q/K and 11 for the
Ace, plus 30 for Bonus and 50 for Foil. -/
def chipValueSpec (c : Card) : Int :=
  if c.enhancement = Enhancement.STONE then 50
  else
    (if c.rank ≤ 10 then c.rank else if c.rank ≤ 13 then 10 else 11) +
      (if c.enhancement = Enhancement.BONUS then 30 else 0) +
      (if c.edition = Edition.FOIL then 50 else 0)
/-- A♠ (all test cards below are plain unless noted). -/
def cAS : Card := { rank := 14, suit := Suit.SPADES }

/-- A♥. -/
def cAH : Card := { rank := 14, suit := Suit.HEARTS }

/-- K♠. -/
def cKS : Card := { rank := 13, suit := Suit.SPADES }

/-- K♥. -/
def cKH : Card := { rank := 13, suit := Suit.HEARTS }

/-- Q♦. -/
def cQD : Card := { rank := 12, suit := Suit.DIAMONDS }

/-- 7♣. -/
def c7C : Card := { rank := 7, suit := Suit.CLUBS }

/-- 3♠. -/
def c3S : Card := { rank := 3, suit := Suit.SPADES }

/-- 2♥. -/
def c2H : Card := { rank := 2, suit := Suit.HEARTS }

/-- 2♠. -/
def c2S : Card := { rank := 2, suit := Suit.SPADES }

/-- 5♠ with the Stone enhancement. -/
def c5SStone : Card := { rank := 5, suit := Suit.SPADES, enhancement := Enhancement.STONE }

/-- 5♥, plain. -/
def c5H : Card := { rank := 5, suit := Suit.HEARTS }

/-- 5♠, plain. -/
def c5S : Card := { rank := 5, suit := Suit.SPADES }

/-- 2♠ with the Polychrome edition. -/
def c2SPoly : Card := { rank := 2, suit := Suit.SPADES, edition := Edition.POLYCHROME }

/-- The spec test scenario state: hand A♠ A♥ K♠ K♥ Q♦ 7♣ 3♠ 2♥, no
jokers, every hand level 1. -/
def twoPairScenarioState : GameState :=
  { hand := [cAS, cAH, cKS, cKH, cQD, c7C, c3S, c2H] }

/-- A default state (irrelevant hand, no jokers, all levels 1). -/
def plainState : GameState := {}

/-- The catalog "Joker" entity (+4 mult, unconditional). -/
def plainJoker : Joker :=
  { name := "Joker", rarity := "common", effect := { flatMult := 4 } }

/-- A pair of fives in hand with one held joker: the smallest state on
which `analyze_potential_hands` reaches `_estimate_hand_score`. -/
def pairWithJokerState : GameState :=
  { hand := [c5S, c5H], jokers := [plainJoker] }

/-- The same pair of fives with no joker held. -/
def pairNoJokerState : GameState :=
  { hand := [c5S, c5H] }

/-- A flat +843-chips entity, making the single-card hand below score
exactly 850. -/
def joker843 : Joker :=
  { name := "Chips843", rarity := "common", effect := { flatChips := 843 } }

/-- A flat +393-chips entity, making the single-card hand below score
exactly 400. -/
def joker393 : Joker :=
  { name := "Chips393", rarity := "common", effect := { flatChips := 393 } }

/-- Strategy scenario: target 800, current score 0, one hand, no
discards, best achievable single-hand score 850. -/
def scenario850 : GameState :=
  { hand := [c2S], jokers := [joker843], handsRemaining := 1,
    discardsRemaining := 0, blind := { name := "Big Blind", targetScore := 800 } }

/-- Strategy scenario: as above but best achievable score 400. -/
def scenario400 : GameState :=
  { hand := [c2S], jokers := [joker393], handsRemaining := 1,
    discardsRemaining := 0, blind := { name := "Big Blind", targetScore := 800 } }

/-- A state with an empty hand. -/
def emptyHandState : GameState := { hand := [] }

/-- An entity with a large negative flat mult: every candidate play then
scores below -1, so the running best of `find_best_play` never improves
on its initial -1 and the function returns None. -/
def negJoker : Joker :=
  { name := "Negative", rarity := "common", effect := { flatMult := -1000 } }

/-- One-card hand held together with the negative entity. -/
def negJokerState : GameState :=
  { hand := [c2S], jokers := [negJoker] }
/-- 4♥. -/
def c4H : Card := { rank := 4, suit := Suit.HEARTS }

/-- 6♥. -/
def c6H : Card := { rank := 6, suit := Suit.HEARTS }

/-- 8♥. -/
def c8H : Card := { rank := 8, suit := Suit.HEARTS }

/-- 9♥ with the Stone enhancement. -/
def c9HStone : Card := { rank := 9, suit := Suit.HEARTS, enhancement := Enhancement.STONE }

/-- The action-level specification of the running-best fold: keep the
first element whose key strictly exceeds the best so far. -/
def keepFirstMax {α : Type} (key : α → Int) (acc : Option α × Int) (a : α) :
    Option α × Int :=
  if acc.2 < key a then (some a, key a) else acc

/-- The strategy `calculate_strategy` produces on `scenario850`. -/
def strat850 : Strategy :=
  { actions := [{ actionType := ActionType.PLAY, cards := [c2S],
                  expectedScore := 850, handType := some HandType.HIGH_CARD }],
    totalExpectedScore := 850, handsNeeded := 1, discardsUsed := 0,
    successProbability := Rat.divInt 19 20 }

/-- The strategy `calculate_strategy` produces on `scenario400`. -/
def strat400 : Strategy :=
  { actions := [{ actionType := ActionType.PLAY, cards := [c2S],
                  expectedScore := 400, handType := some HandType.HIGH_CARD }],
    totalExpectedScore := 400, handsNeeded := 1, discardsUsed := 0,
    successProbability := Rat.divInt 1 2 }

/-- A one-card state (hand 2♠, no entities). -/
def singleCardState : GameState := { hand := [c2S] }
/-- The reducible multiplication agrees with the library one. -/
theorem qmul_eq (a b : ℚ) : qmul a b = a * b := by
  unfold qmul
  rw [Rat.divInt_eq_div]
  push_cast
  conv_rhs => rw [← Rat.num_div_den a, ← Rat.num_div_den b]
  rw [div_mul_div_comm]

/-- The reducible subtraction agrees with the library one. -/
theorem qsub_eq (a b : ℚ) : qsub a b = a - b := by
  unfold qsub
  rw [Rat.divInt_eq_div]
  push_cast
  conv_rhs => rw [← Rat.num_div_den a, ← Rat.num_div_den b]
  rw [div_sub_div _ _ (by positivity) (by positivity)]
  ring_nf

/-- The reducible negation agrees with the library one. -/
theorem qneg_eq (a : ℚ) : qneg a = -a := by
  unfold qneg
  rw [Rat.divInt_eq_div]
  push_cast
  conv_rhs => rw [← Rat.num_div_den a]
  ring

/-- The reducible inverse agrees with the library one. -/
theorem qinv_eq (a : ℚ) : qinv a = a⁻¹ := by
  unfold qinv
  rw [Rat.divInt_eq_div]
  push_cast
  conv_rhs => rw [← Rat.num_div_den a]
  rw [inv_div]

/-- Python min agrees with the library min. -/
theorem pymin_eq (a b : ℚ) : pymin a b = min a b := by
  rw [pymin, min_def]

/-- Python max agrees with the library max. -/
theorem pymax_eq (a b : ℚ) : pymax a b = max a b := by
  rw [pymax, max_def]
  rcases le_total a b with h | h
  · rcases eq_or_lt_of_le h with rfl | hlt
    · simp
    · rw [if_pos h, if_neg (not_le.mpr hlt)]
  · rw [if_pos h]
    rcases eq_or_lt_of_le h with rfl | hlt
    · simp
    · rw [if_neg (not_le.mpr hlt)]

/-- Truncation toward zero agrees with the floor on nonnegative
rationals. -/
theorem truncQ_eq_floor_of_nonneg (q : ℚ) (hq : 0 ≤ q) : truncQ q = ⌊q⌋ := by
  unfold truncQ
  rw [if_neg (not_lt.mpr hq)]

/-- C1 (code bug): the claim says Stone-enhanced cards contribute to
neither the rank counts nor the suit counts of the hand classifier.
The code only excludes them from the suit counts: `ranks` is built from
every card, so a Stone 5♠ together with a plain 5♥ is classified as a
Pair with the Stone card scoring (under the claim it would be HighCard
on the 5♥ alone), and in a heart hand whose fifth heart is Stone the
flush is refused (suit not counted) while the Stone card's rank still
decides the high card. -/
theorem c1_stone_rank_is_counted :
    getHandType [c5SStone, c5H] = (HandType.PAIR, [c5SStone, c5H]) ∧
    getHandType [c2H, c4H, c6H, c8H, c9HStone] =
      (HandType.HIGH_CARD, [c9HStone]) := by
  exact ⟨rfl, rfl⟩

/-- C2 (corrected): for every played card list and game state the final
score is the truncation toward zero of chips times the combined
multiplier computed with the unrounded multiplicative value - equal to
its floor whenever that product is nonnegative - and the reported total
mult is likewise the truncation (floor when nonnegative) of the
combined multiplier, not its value rounded to the nearest integer. -/
theorem c2_calculate_score_floor (cards : List Card) (state : GameState)
    (hscore : 0 ≤ ((scoreParts cards state).chips : ℚ) *
      (((scoreParts cards state).mult : ℚ) * (scoreParts cards state).xMult))
    (hmult : 0 ≤ ((scoreParts cards state).mult : ℚ) * (scoreParts cards state).xMult) :
    (calculateScore cards state).score =
      ⌊((scoreParts cards state).chips : ℚ) *
        (((scoreParts cards state).mult : ℚ) * (scoreParts cards state).xMult)⌋ ∧
    (calculateScore cards state).mult =
      ⌊((scoreParts cards state).mult : ℚ) * (scoreParts cards state).xMult⌋ := by
  constructor
  · show truncQ (qmul ((scoreParts cards state).chips : ℚ)
      (qmul ((scoreParts cards state).mult : ℚ) (scoreParts cards state).xMult)) = _
    rw [qmul_eq, qmul_eq]
    exact truncQ_eq_floor_of_nonneg _ hscore
  · show truncQ (qmul ((scoreParts cards state).mult : ℚ)
      (scoreParts cards state).xMult) = _
    rw [qmul_eq]
    exact truncQ_eq_floor_of_nonneg _ hmult

/-- C2 witness: both nonnegativity hypotheses hold at the concrete
polychrome single-card play and the theorem computes the floors there. -/
theorem c2_calculate_score_floor_witness :
    (calculateScore [c2SPoly] plainState).score =
      ⌊((scoreParts [c2SPoly] plainState).chips : ℚ) *
        (((scoreParts [c2SPoly] plainState).mult : ℚ) *
          (scoreParts [c2SPoly] plainState).xMult)⌋ ∧
    (calculateScore [c2SPoly] plainState).mult =
      ⌊((scoreParts [c2SPoly] plainState).mult : ℚ) *
        (scoreParts [c2SPoly] plainState).xMult⌋ :=
  c2_calculate_score_floor [c2SPoly] plainState
    (by
      rw [show scoreParts [c2SPoly] plainState =
        { handType := HandType.HIGH_CARD, chips := 7, mult := 1,
          xMult := Rat.divInt 3 2 } from rfl]
      rw [Rat.divInt_eq_div]
      norm_num)
    (by
      rw [show scoreParts [c2SPoly] plainState =
        { handType := HandType.HIGH_CARD, chips := 7, mult := 1,
          xMult := Rat.divInt 3 2 } from rfl]
      rw [Rat.divInt_eq_div]
      norm_num)

/-- C2 counterexample: a plain 2♠ with the Polychrome edition played as
a high card has combined multiplier 1 * 1.5 = 3/2; the code reports
total mult `int(1.5) = 1` while the rounded value the claim asserts is
2 (the final score 10 = floor(7 * 1.5) itself is unaffected). -/
theorem c2_reported_mult_not_rounded :
    (calculateScore [c2SPoly] plainState).mult = 1 ∧
    ((scoreParts [c2SPoly] plainState).mult : ℚ) *
      (scoreParts [c2SPoly] plainState).xMult = 3 / 2 ∧
    round (((scoreParts [c2SPoly] plainState).mult : ℚ) *
      (scoreParts [c2SPoly] plainState).xMult) = 2 ∧
    (calculateScore [c2SPoly] plainState).score = 10 := by
  have hp : scoreParts [c2SPoly] plainState =
      { handType := HandType.HIGH_CARD, chips := 7, mult := 1,
        xMult := Rat.divInt 3 2 } := rfl
  have hval : ((scoreParts [c2SPoly] plainState).mult : ℚ) *
      (scoreParts [c2SPoly] plainState).xMult = 3 / 2 := by
    rw [hp, Rat.divInt_eq_div]
    norm_num
  refine ⟨rfl, hval, ?_, rfl⟩
  rw [hval, round_eq]
  norm_num

/-- C4 (code bug): the simplified score estimator reads
`joker.trigger_type`, an attribute the `Joker` class does not define,
so it raises AttributeError as soon as at least one entity is held and
any candidate hand is produced: `analyze_potential_hands` fails on a
pair of fives with the catalog "Joker" held.  The identical state with
no entity completes normally and returns the three-of-a-kind candidate
with the flat-table estimate (30 + 5 + 5 chips times mult 3 = 120,
probability 2/44 = 1/22). -/
theorem c4_estimator_raises_with_entity :
    analyzePotentialHands pairWithJokerState =
      Except.error "AttributeError: Joker object has no attribute trigger_type" ∧
    analyzePotentialHands pairNoJokerState =
      Except.ok [{ handType := HandType.THREE_OF_A_KIND, cardsNeeded := 1,
                   cardsToDiscard := [], cardsToKeep := [c5S, c5H],
                   probability := Rat.divInt 1 22, expectedScore := 120 }] := by
  exact ⟨rfl, rfl⟩

/-- C10: card equality compares only rank, suit and enhancement, but
the tuple fed to `Card.__hash__` additionally includes edition and
seal; the 2♠ and the Polychrome 2♠ compare equal yet hash over
different keys, so hashing is not consistent with the equality used for
set/duplicate detection. -/
theorem c10_hash_inconsistent_with_eq :
    cardEqb c2S c2SPoly = true ∧ cardHashKey c2S ≠ cardHashKey c2SPoly := by
  exact ⟨rfl, by decide⟩
/-- Splitting a left fold at position `n`. -/
theorem foldl_chunk {α β : Type} (f : β → α → β) (i : β) (l : List α) (n : Nat) :
    l.foldl f i = (l.drop n).foldl f ((l.take n).foldl f i) := by
  conv_lhs => rw [← List.take_append_drop n l]
  rw [List.foldl_append]

set_option maxRecDepth 400000 in
/-- The running best over the 218 candidate subsets of the two-pair
scenario hand, evaluated in four chunks (so that each reduction stays
shallow): the two pair {A♠, A♥, K♠, K♥} at score 124, found first at
enumeration position 110 and never strictly beaten. -/
theorem bestPlayFold_twoPairScenario :
    bestPlayFold twoPairScenarioState =
      (some ([(0, cAS), (1, cAH), (2, cKS), (3, cKH)],
        { actionType := ActionType.PLAY, cards := [cAS, cAH, cKS, cKH],
          expectedScore := 124, handType := some HandType.TWO_PAIR }), 124) := by
  have h1 : ((allPlayCombos twoPairScenarioState).take 60).foldl
      (bestPlayStep twoPairScenarioState) (none, -1) =
      (some ([(0, cAS), (1, cAH)],
        { actionType := ActionType.PLAY, cards := [cAS, cAH],
          expectedScore := 64, handType := some HandType.PAIR }), 64) := by rfl
  have h2 : (((allPlayCombos twoPairScenarioState).drop 60).take 60).foldl
      (bestPlayStep twoPairScenarioState)
      (some ([(0, cAS), (1, cAH)],
        { actionType := ActionType.PLAY, cards := [cAS, cAH],
          expectedScore := 64, handType := some HandType.PAIR }), 64) =
      (some ([(0, cAS), (1, cAH), (2, cKS), (3, cKH)],
        { actionType := ActionType.PLAY, cards := [cAS, cAH, cKS, cKH],
          expectedScore := 124, handType := some HandType.TWO_PAIR }), 124) := by rfl
  have h3 : ((((allPlayCombos twoPairScenarioState).drop 60).drop 60).take 60).foldl
      (bestPlayStep twoPairScenarioState)
      (some ([(0, cAS), (1, cAH), (2, cKS), (3, cKH)],
        { actionType := ActionType.PLAY, cards := [cAS, cAH, cKS, cKH],
          expectedScore := 124, handType := some HandType.TWO_PAIR }), 124) =
      (some ([(0, cAS), (1, cAH), (2, cKS), (3, cKH)],
        { actionType := ActionType.PLAY, cards := [cAS, cAH, cKS, cKH],
          expectedScore := 124, handType := some HandType.TWO_PAIR }), 124) := by rfl
  have h4 : ((((allPlayCombos twoPairScenarioState).drop 60).drop 60).drop 60).foldl
      (bestPlayStep twoPairScenarioState)
      (some ([(0, cAS), (1, cAH), (2, cKS), (3, cKH)],
        { actionType := ActionType.PLAY, cards := [cAS, cAH, cKS, cKH],
          expectedScore := 124, handType := some HandType.TWO_PAIR }), 124) =
      (some ([(0, cAS), (1, cAH), (2, cKS), (3, cKH)],
        { actionType := ActionType.PLAY, cards := [cAS, cAH, cKS, cKH],
          expectedScore := 124, handType := some HandType.TWO_PAIR }), 124) := by rfl
  rw [bestPlayFold, foldl_chunk _ _ _ 60, h1, foldl_chunk _ _ _ 60, h2,
    foldl_chunk _ _ _ 60, h3, h4]

/-- C5: on the hand A♠ A♥ K♠ K♥ Q♦ 7♣ 3♠ 2♥ with no entities and all
hand levels at 1, `find_best_play` selects the two pair
{A♠, A♥, K♠, K♥} and its scoring arithmetic is
chips = 20 + 11 + 11 + 10 + 10 = 62, mult = 2, score = 124. -/
theorem c5_two_pair_scenario :
    findBestPlay twoPairScenarioState =
      some { actionType := ActionType.PLAY, cards := [cAS, cAH, cKS, cKH],
             expectedScore := 124, handType := some HandType.TWO_PAIR } ∧
    calculateScore [cAS, cAH, cKS, cKH] twoPairScenarioState =
      { score := 124, handType := HandType.TWO_PAIR, chips := 62, mult := 2 } := by
  constructor
  · show (bestPlayFold twoPairScenarioState).1.map (fun p => p.2) = _
    rw [bestPlayFold_twoPairScenario]
    rfl
  · rfl
/-- Closed form of the source `chip_value`. -/
theorem chipValue_closed_form (r : Int) (su : Suit) (e : Enhancement)
    (ed : Edition) (sl : Seal) :
    chipValue ⟨r, su, e, ed, sl⟩ =
      if e = Enhancement.STONE then 50
      else (if 2 ≤ r ∧ r ≤ 10 then r
            else if r = 11 ∨ r = 12 ∨ r = 13 then 10 else 11) +
        (if e = Enhancement.BONUS then 30 else 0) +
        (if ed = Edition.FOIL then 50 else 0) := by
  simp only [chipValue]
  split_ifs <;> omega

/-- C7: `chip_value` is 50 for Stone; otherwise the rank base (face
value for 2-10, 10 for J/Q/K, 11 for the Ace) plus 30 for Bonus plus 50
for Foil - stated against the spec-worded `chipValueSpec` for ranks
2-14 - and consequently it is invariant under edition changes except
Foil (+50) and under enhancement changes except Bonus (+30) and Stone
(fixed 50), where the edition clauses read on non-Stone cards since
Stone is fixed at 50 outright. -/
theorem c7_chip_value (c : Card) :
    (2 ≤ c.rank → c.rank ≤ 14 → chipValue c = chipValueSpec c) ∧
    (∀ ed : Edition, c.enhancement ≠ Enhancement.STONE → ed ≠ Edition.FOIL →
      chipValue { c with edition := ed } =
        chipValue { c with edition := Edition.NONE }) ∧
    (c.enhancement ≠ Enhancement.STONE →
      chipValue { c with edition := Edition.FOIL } =
        chipValue { c with edition := Edition.NONE } + 50) ∧
    (∀ en : Enhancement, en ≠ Enhancement.BONUS → en ≠ Enhancement.STONE →
      chipValue { c with enhancement := en } =
        chipValue { c with enhancement := Enhancement.NONE }) ∧
    (chipValue { c with enhancement := Enhancement.BONUS } =
      chipValue { c with enhancement := Enhancement.NONE } + 30) ∧
    chipValue { c with enhancement := Enhancement.STONE } = 50 := by
  obtain ⟨r, su, e, ed, sl⟩ := c
  refine ⟨?_, ?_, ?_, ?_, ?_, ?_⟩
  · intro h2 h14
    have h2' : 2 ≤ r := h2
    have h14' : r ≤ 14 := h14
    rw [chipValue_closed_form]
    simp only [chipValueSpec]
    split_ifs <;> omega
  · intro ed' he hf
    show chipValue ⟨r, su, e, ed', sl⟩ = chipValue ⟨r, su, e, Edition.NONE, sl⟩
    rw [chipValue_closed_form, chipValue_closed_form,
      if_neg hf, if_neg (by decide : ¬(Edition.NONE = Edition.FOIL))]
  · intro he
    show chipValue ⟨r, su, e, Edition.FOIL, sl⟩ =
      chipValue ⟨r, su, e, Edition.NONE, sl⟩ + 50
    rw [chipValue_closed_form, chipValue_closed_form, if_neg he, if_neg he,
      if_pos rfl, if_neg (by decide : ¬(Edition.NONE = Edition.FOIL))]
    omega
  · intro en h1 h2
    show chipValue ⟨r, su, en, ed, sl⟩ = chipValue ⟨r, su, Enhancement.NONE, ed, sl⟩
    rw [chipValue_closed_form, chipValue_closed_form, if_neg h2,
      if_neg (by decide : ¬(Enhancement.NONE = Enhancement.STONE)),
      if_neg h1, if_neg (by decide : ¬(Enhancement.NONE = Enhancement.BONUS))]
  · show chipValue ⟨r, su, Enhancement.BONUS, ed, sl⟩ =
      chipValue ⟨r, su, Enhancement.NONE, ed, sl⟩ + 30
    rw [chipValue_closed_form, chipValue_closed_form,
      if_neg (by decide : ¬(Enhancement.BONUS = Enhancement.STONE)),
      if_neg (by decide : ¬(Enhancement.NONE = Enhancement.STONE)),
      if_pos rfl, if_neg (by decide : ¬(Enhancement.NONE = Enhancement.BONUS))]
    omega
  · rfl

/-- C7 witness: the closed form and the invariances at the plain 5♠. -/
theorem c7_chip_value_witness :
    chipValue c5S = chipValueSpec c5S ∧
    chipValue { c5S with edition := Edition.HOLOGRAPHIC } =
      chipValue { c5S with edition := Edition.NONE } ∧
    chipValue { c5S with edition := Edition.FOIL } =
      chipValue { c5S with edition := Edition.NONE } + 50 ∧
    chipValue { c5S with enhancement := Enhancement.MULT } =
      chipValue { c5S with enhancement := Enhancement.NONE } :=
  ⟨(c7_chip_value c5S).1 (by decide) (by decide),
   (c7_chip_value c5S).2.1 Edition.HOLOGRAPHIC (by decide) (by decide),
   (c7_chip_value c5S).2.2.1 (by decide),
   (c7_chip_value c5S).2.2.2.1 Enhancement.MULT (by decide) (by decide)⟩
/-- C8 (corrected): parsing a valid card token and re-rendering it with
the short-name mapping returns the original token (upper-cased), for
every valid token whose rank symbol is not the single letter T - the T
spelling parses to rank 10 but re-renders as "10". -/
theorem c8_parse_render_roundtrip (t : List Char)
    (ht : pyStrip (pyUpper t) ∈ validTokensNoT) :
    ∃ c, parseCard t = Except.ok c ∧ renderCard c = pyStrip (pyUpper t) := by
  have hall : validTokensNoT.all tokenRoundTrips = true := by rfl
  have h2 : tokenRoundTrips (pyStrip (pyUpper t)) = true :=
    List.all_eq_true.mp hall _ ht
  unfold tokenRoundTrips at h2
  rcases hp : parseCore (pyStrip (pyUpper t)) with e | c
  · rw [hp] at h2
    simp at h2
  · refine ⟨c, ?_, ?_⟩
    · show parseCore (pyStrip (pyUpper t)) = Except.ok c
      exact hp
    · rw [hp] at h2
      simpa using h2

/-- C8 witness: the theorem applied to the lower-case token "as". -/
theorem c8_parse_render_roundtrip_witness :
    ∃ c, parseCard ['a', 's'] = Except.ok c ∧
      renderCard c = pyStrip (pyUpper ['a', 's']) :=
  c8_parse_render_roundtrip ['a', 's'] (by decide)

/-- C8 counterexample: the valid token "TH" parses to the 10 of hearts
but re-renders as "10H", so the round trip does not return the original
token (even ignoring case: the token is already upper-case). -/
theorem c8_T_token_not_roundtrip :
    parseCard ['T', 'H'] = Except.ok { rank := 10, suit := Suit.HEARTS } ∧
    renderCard { rank := 10, suit := Suit.HEARTS } = ['1', '0', 'H'] ∧
    pyStrip (pyUpper ['T', 'H']) = ['T', 'H'] ∧
    (['1', '0', 'H'] : List Char) ≠ ['T', 'H'] :=
  ⟨rfl, rfl, rfl, by decide⟩
/-- C3: for every state with a positive remaining target on which the
simulation completes (`Except.ok`), the reported success probability is
0.95 when the simulated total reaches the target using no more hands
than the caller state has, 0.0 when the target is reached with more
hands than available, and min(0.8, total/target) otherwise; moreover on
the concrete scenarios (target 800, one hand, no discards) with best
achievable single-hand scores 850 and 400 the results are success 0.95
with exactly one PLAY action, and success 0.5. -/
theorem c3_calculate_strategy_success :
    (∀ (s : GameState) (strat : Strategy),
      0 < s.blind.targetScore - s.currentScore →
      calculateStrategy s = Except.ok strat →
      strat.successProbability =
        if s.blind.targetScore ≤ strat.totalExpectedScore then
          (if strat.handsNeeded ≤ s.handsRemaining then (19 : ℚ) / 20 else 0)
        else min ((4 : ℚ) / 5)
          ((strat.totalExpectedScore : ℚ) / (s.blind.targetScore : ℚ))) ∧
    (calculateStrategy scenario850 = Except.ok strat850 ∧
      strat850.successProbability = (19 : ℚ) / 20 ∧
      strat850.actions.map (fun a => a.actionType) = [ActionType.PLAY]) ∧
    (calculateStrategy scenario400 = Except.ok strat400 ∧
      strat400.successProbability = (1 : ℚ) / 2) := by
  refine ⟨?_, ⟨rfl, ?_, rfl⟩, ⟨rfl, ?_⟩⟩
  · intro s strat hneed hok
    unfold calculateStrategy at hok
    rw [if_neg (by omega)] at hok
    rcases hsim : simLoop s.blind.targetScore
        (s.handsRemaining.toNat + s.discardsRemaining.toNat)
        s s.currentScore 0 0 [] with e | r
    · rw [hsim] at hok
      cases hok
    · obtain ⟨total, hn, du, acts⟩ := r
      rw [hsim] at hok
      cases hok
      simp only [pymin_eq, Rat.divInt_eq_div, Int.cast_ofNat]
  · show Rat.divInt 19 20 = (19 : ℚ) / 20
    rw [Rat.divInt_eq_div]
    norm_num
  · show Rat.divInt 1 2 = (1 : ℚ) / 2
    rw [Rat.divInt_eq_div]
    norm_num

/-- C3 witness: the characterization applied to `scenario850`. -/
theorem c3_calculate_strategy_success_witness :
    strat850.successProbability =
      if scenario850.blind.targetScore ≤ strat850.totalExpectedScore then
        (if strat850.handsNeeded ≤ scenario850.handsRemaining then (19 : ℚ) / 20 else 0)
      else min ((4 : ℚ) / 5)
        ((strat850.totalExpectedScore : ℚ) / (scenario850.blind.targetScore : ℚ)) :=
  c3_calculate_strategy_success.1 scenario850 strat850 (by decide) (by rfl)
/-- The start of a running max is below its result. -/
theorem le_key_firstMaxFrom {α β : Type} [LinearOrder β] (key : α → β)
    (l : List α) : ∀ (m : α), key m ≤ key (firstMaxFrom key m l) := by
  induction l with
  | nil => intro m; exact le_refl _
  | cons b bs ih =>
    intro m
    simp only [firstMaxFrom]
    by_cases h : key m < key b
    · rw [if_pos h]
      exact le_trans (le_of_lt h) (ih b)
    · rw [if_neg h]
      exact ih m

/-- Every element of the list is below the running max. -/
theorem mem_le_key_firstMaxFrom {α β : Type} [LinearOrder β] (key : α → β)
    (l : List α) : ∀ (m x : α), x ∈ l → key x ≤ key (firstMaxFrom key m l) := by
  induction l with
  | nil => intro m x hx; cases hx
  | cons b bs ih =>
    intro m x hx
    simp only [firstMaxFrom]
    by_cases h : key m < key b
    · rw [if_pos h]
      rcases List.mem_cons.mp hx with rfl | hxs
      · exact le_key_firstMaxFrom key bs x
      · exact ih b x hxs
    · rw [if_neg h]
      rcases List.mem_cons.mp hx with rfl | hxs
      · exact le_trans (le_of_not_lt h) (le_key_firstMaxFrom key bs m)
      · exact ih m x hxs

/-- Two starts below the list maximum yield the same running max. -/
theorem firstMaxFrom_start_irrel {α β : Type} [LinearOrder β] (key : α → β)
    (l : List α) : ∀ (a b : α), key b ≤ key a →
      key a < key (firstMaxFrom key b l) →
      firstMaxFrom key a l = firstMaxFrom key b l := by
  induction l with
  | nil =>
    intro a b hba hlt
    simp only [firstMaxFrom] at hlt
    exact absurd hlt (not_lt.mpr hba)
  | cons c cs ih =>
    intro a b hba hlt
    simp only [firstMaxFrom] at hlt ⊢
    by_cases hac : key a < key c
    · have hbc : key b < key c := lt_of_le_of_lt hba hac
      rw [if_pos hac, if_pos hbc]
    · have hca : key c ≤ key a := le_of_not_lt hac
      rw [if_neg hac]
      by_cases hbc : key b < key c
      · rw [if_pos hbc] at hlt ⊢
        exact ih a c hca hlt
      · rw [if_neg hbc] at hlt ⊢
        exact ih a b hba hlt

/-- A start above every element is the running max. -/
theorem firstMaxFrom_of_le {α β : Type} [LinearOrder β] (key : α → β)
    (l : List α) : ∀ (a : α), (∀ x ∈ l, key x ≤ key a) →
      firstMaxFrom key a l = a := by
  induction l with
  | nil => intro a _; rfl
  | cons b bs ih =>
    intro a hall
    simp only [firstMaxFrom]
    rw [if_neg (not_lt.mpr (hall b (List.mem_cons_self b bs)))]
    exact ih a (fun x hx => hall x (List.mem_cons_of_mem _ hx))

/-- Inserting never empties. -/
theorem insertDescBy_ne_nil {α β : Type} [LinearOrder β] (key : α → β)
    (a : α) (l : List α) : insertDescBy key a l ≠ [] := by
  cases l with
  | nil => simp [insertDescBy]
  | cons b bs =>
    simp only [insertDescBy]
    split_ifs <;> simp

/-- Membership in an insertion. -/
theorem mem_insertDescBy {α β : Type} [LinearOrder β] (key : α → β)
    (a x : α) (l : List α) : x ∈ insertDescBy key a l ↔ x = a ∨ x ∈ l := by
  induction l with
  | nil => simp [insertDescBy]
  | cons b bs ih =>
    simp only [insertDescBy]
    split_ifs
    · simp only [List.mem_cons, ih]
      tauto
    · simp only [List.mem_cons]

/-- The stable sort of a nonempty list is nonempty. -/
theorem stableSortDescBy_ne_nil {α β : Type} [LinearOrder β] (key : α → β)
    (a : α) (l : List α) : stableSortDescBy key (a :: l) ≠ [] := by
  show insertDescBy key a (stableSortDescBy key l) ≠ []
  exact insertDescBy_ne_nil key a _

/-- The head of the stable descending sort is the first maximum. -/
theorem head_stableSortDescBy {α β : Type} [LinearOrder β] (key : α → β)
    (l : List α) : ∀ (a : α),
      (stableSortDescBy key (a :: l)).head? = some (firstMaxFrom key a l) := by
  induction l with
  | nil => intro a; rfl
  | cons b bs ih =>
    intro a
    show (insertDescBy key a (stableSortDescBy key (b :: bs))).head? = _
    rcases hs : stableSortDescBy key (b :: bs) with _ | ⟨h, t⟩
    · exact absurd hs (stableSortDescBy_ne_nil key b bs)
    · have hh : h = firstMaxFrom key b bs := by
        have hhead := ih b
        rw [hs] at hhead
        simpa using hhead
      subst hh
      simp only [insertDescBy]
      by_cases hlt : key a < key (firstMaxFrom key b bs)
      · rw [if_pos hlt]
        simp only [List.head?_cons, Option.some.injEq]
        simp only [firstMaxFrom]
        by_cases hab : key a < key b
        · rw [if_pos hab]
        · rw [if_neg hab]
          exact (firstMaxFrom_start_irrel key bs a b (le_of_not_lt hab) hlt).symm
      · rw [if_neg hlt]
        simp only [List.head?_cons, Option.some.injEq]
        refine (firstMaxFrom_of_le key (b :: bs) a ?_).symm
        intro x hx
        have hxle : key x ≤ key (firstMaxFrom key b bs) := by
          rcases List.mem_cons.mp hx with rfl | hxs
          · exact le_key_firstMaxFrom key bs x
          · exact mem_le_key_firstMaxFrom key bs b x hxs
        exact le_trans hxle (le_of_not_lt hlt)

/-- Inserting preserves descending pairwise order. -/
theorem pairwise_insertDescBy {α β : Type} [LinearOrder β] (key : α → β)
    (a : α) (l : List α)
    (h : l.Pairwise (fun x y => key y ≤ key x)) :
    (insertDescBy key a l).Pairwise (fun x y => key y ≤ key x) := by
  induction l with
  | nil => simp [insertDescBy]
  | cons b bs ih =>
    simp only [insertDescBy]
    split_ifs with hab
    · refine List.Pairwise.cons ?_ (ih (List.Pairwise.of_cons h))
      intro x hx
      rcases (mem_insertDescBy key a x bs).mp hx with rfl | hxs
      · exact le_of_lt hab
      · exact (List.pairwise_cons.mp h).1 x hxs
    · refine List.Pairwise.cons ?_ h
      intro x hx
      rcases List.mem_cons.mp hx with rfl | hxs
      · exact le_of_not_lt hab
      · exact le_trans ((List.pairwise_cons.mp h).1 x hxs) (le_of_not_lt hab)

/-- The stable descending sort is sorted (descending pairwise). -/
theorem pairwise_stableSortDescBy {α β : Type} [LinearOrder β] (key : α → β)
    (l : List α) :
    (stableSortDescBy key l).Pairwise (fun x y => key y ≤ key x) := by
  induction l with
  | nil => simp [stableSortDescBy]
  | cons a as ih => exact pairwise_insertDescBy key a _ ih
/-- The running-best fold from a seeded best computes the first
maximum. -/
theorem foldl_keepFirstMax_some {α : Type} (key : α → Int) (l : List α) :
    ∀ (m : α), l.foldl (keepFirstMax key) (some m, key m) =
      (some (firstMaxFrom key m l), key (firstMaxFrom key m l)) := by
  induction l with
  | nil => intro m; rfl
  | cons b bs ih =>
    intro m
    simp only [List.foldl_cons, keepFirstMax, firstMaxFrom]
    by_cases h : key m < key b
    · rw [if_pos h, if_pos h]
      exact ih b
    · rw [if_neg h, if_neg h]
      exact ih m

/-- The running-best fold from the initial (None, -1) returns the head
of the stable descending sort, provided some element has a nonnegative
key. -/
theorem foldl_keepFirstMax_head {α : Type} (key : α → Int) (l : List α)
    (hex : ∃ a ∈ l, 0 ≤ key a) :
    (l.foldl (keepFirstMax key) ((none : Option α), -1)).1 =
      (stableSortDescBy key l).head? := by
  induction l with
  | nil => simp at hex
  | cons a rest ih =>
    simp only [List.foldl_cons]
    by_cases ha : 0 ≤ key a
    · have hstep : keepFirstMax key ((none : Option α), -1) a = (some a, key a) := by
        simp only [keepFirstMax]
        rw [if_pos (by omega)]
      rw [hstep, foldl_keepFirstMax_some key rest a,
        head_stableSortDescBy key rest a]
    · have hstep : keepFirstMax key ((none : Option α), -1) a = (none, -1) := by
        simp only [keepFirstMax]
        rw [if_neg (by omega)]
      rw [hstep]
      obtain ⟨x, hxmem, hx⟩ := hex
      have hxrest : x ∈ rest := by
        rcases List.mem_cons.mp hxmem with rfl | hr
        · exact absurd hx ha
        · exact hr
      rw [ih ⟨x, hxrest, hx⟩]
      rcases rest with _ | ⟨b, bs⟩
      · cases hxrest
      · rw [head_stableSortDescBy key bs b]
        show _ = (insertDescBy key a (stableSortDescBy key (b :: bs))).head?
        rcases hs : stableSortDescBy key (b :: bs) with _ | ⟨h, t⟩
        · exact absurd hs (stableSortDescBy_ne_nil key b bs)
        · have hh : h = firstMaxFrom key b bs := by
            have hhead := head_stableSortDescBy key bs b
            rw [hs] at hhead
            simpa using hhead
          have hxh : key x ≤ key h := by
            rw [hh]
            rcases List.mem_cons.mp hxrest with rfl | hxs
            · exact le_key_firstMaxFrom key bs x
            · exact mem_le_key_firstMaxFrom key bs b x hxs
          have hah : key a < key h := by omega
          simp only [insertDescBy]
          rw [if_pos hah]
          simp only [List.head?_cons, hh]

/-- Projecting the combo-level running best of `find_best_play` onto
actions gives the action-level running best over the same enumeration. -/
theorem bestPlayFold_map_proj (s : GameState) (l : List (List (Nat × Card))) :
    ∀ (o : Option (List (Nat × Card) × Action)) (b : Int),
      (((l.foldl (bestPlayStep s) (o, b)).1).map (fun p => p.2),
        (l.foldl (bestPlayStep s) (o, b)).2) =
      (l.map (fun ec => mkPlayAction s (ec.map (fun p => p.2)))).foldl
        (keepFirstMax (fun a => a.expectedScore)) (o.map (fun p => p.2), b) := by
  induction l with
  | nil => intro o b; rfl
  | cons ec rest ih =>
    intro o b
    simp only [List.foldl_cons, List.map_cons, bestPlayStep, keepFirstMax]
    by_cases h : b < (mkPlayAction s (ec.map (fun p => p.2))).expectedScore
    · rw [if_pos h, if_pos h]
      exact ih _ _
    · rw [if_neg h, if_neg h]
      exact ih o b

/-- On a nonempty hand, `find_best_play` is the action-level running
best over the enumerated candidate actions. -/
theorem findBestPlay_eq_foldl (s : GameState) (h : s.hand ≠ []) :
    findBestPlay s = ((allPlayActions s).foldl
      (keepFirstMax (fun a => a.expectedScore))
      ((none : Option Action), -1)).1 := by
  have hne : s.hand.isEmpty = false := by
    cases hs : s.hand
    · exact absurd hs h
    · rfl
  unfold findBestPlay
  rw [hne]
  simp only [Bool.false_eq_true, if_false]
  exact congrArg Prod.fst (bestPlayFold_map_proj s (allPlayCombos s) none (-1))

/-- C6 (corrected): `find_all_plays` enumerates the same candidate
subsets as `find_best_play` (the shared `allPlayActions` enumeration,
sizes 1..min(5, hand size) in combination order) and returns the first
`top_n` of its stable descending sort, so its output is sorted
descending by score with enumeration order preserved among ties; and on
every state with a nonempty hand in which some candidate scores at
least 0 (always the case without negative entity effects),
`find_all_plays(1)` is exactly the singleton of `find_best_play`'s
action. -/
theorem c6_find_all_plays_spec (s : GameState) :
    (∀ n, findAllPlays s n =
      (stableSortDescBy (fun a => a.expectedScore) (allPlayActions s)).take n ∧
      (findAllPlays s n).Pairwise (fun x y => y.expectedScore ≤ x.expectedScore)) ∧
    (s.hand ≠ [] → (∃ a ∈ allPlayActions s, 0 ≤ a.expectedScore) →
      ∃ best, findBestPlay s = some best ∧ findAllPlays s 1 = [best]) := by
  constructor
  · intro n
    refine ⟨rfl, ?_⟩
    exact List.Pairwise.sublist (List.take_sublist n _)
      (pairwise_stableSortDescBy (fun a : Action => a.expectedScore)
        (allPlayActions s))
  · intro hne hex
    rw [findBestPlay_eq_foldl s hne,
      foldl_keepFirstMax_head (fun a : Action => a.expectedScore)
        (allPlayActions s) hex]
    rcases hs : stableSortDescBy (fun a : Action => a.expectedScore)
        (allPlayActions s) with _ | ⟨h, t⟩
    · obtain ⟨x, hxmem, _⟩ := hex
      rcases hl : allPlayActions s with _ | ⟨a, as⟩
      · rw [hl] at hxmem
        cases hxmem
      · rw [hl] at hs
        exact absurd hs (stableSortDescBy_ne_nil _ a as)
    · refine ⟨h, rfl, ?_⟩
      · show (stableSortDescBy (fun a : Action => a.expectedScore)
          (allPlayActions s)).take 1 = [h]
        rw [hs]
        rfl

/-- C6 witness: the theorem applied to the one-card state (hand 2♠, no
entities): the single candidate scores 7 ≥ 0 and is both the best play
and the sole element of `find_all_plays(1)`. -/
theorem c6_find_all_plays_spec_witness :
    ∃ best, findBestPlay singleCardState = some best ∧
      findAllPlays singleCardState 1 = [best] :=
  (c6_find_all_plays_spec singleCardState).2 (by decide) (by decide)

/-- C6 counterexample: with an empty hand `find_best_play` returns the
placeholder action while `find_all_plays(1)` is the empty list (no
single element); and with a -1000-mult entity every candidate scores
below -1, so `find_best_play` returns None while `find_all_plays(1)`
still returns one action. -/
theorem c6_counterexample :
    (findBestPlay emptyHandState).isSome = true ∧
    findAllPlays emptyHandState 1 = [] ∧
    findBestPlay negJokerState = none ∧
    (findAllPlays negJokerState 1).length = 1 := by
  exact ⟨rfl, rfl, rfl, rfl⟩
end Balatro
